import Mathlib

/-
Formal model of the market-pipeline repository (pull/push market-data
ingestion, SQLite tick storage, statistical signal detection, alert fan-out).

Conventions of the embedding:
* Python floats are modelled by exact rationals; `statistics.mean` and the
  list arithmetic translate directly.
* `statistics.stdev l` is the square root of the sample variance (n-1
  denominator).  The square root of a rational is irrational in general, so
  the executable detector compares against the *squared* form of the source
  condition; the lemma absDiv_sqrt_ge_iff proves the squared form equivalent
  to the source's condition on the real-valued standard deviation, and the
  claim theorems are stated with the real square root.
* Python's builtin round (banker's rounding to a number of decimal digits)
  is modelled exactly by roundHalfEven / pyRound.
* Naive datetimes are modelled by an abstract totally ordered type (here a
  natural number); `datetime.isoformat` / `datetime.fromisoformat` is an
  order-preserving bijective encoding of naive datetimes into the TEXT keys
  SQLite sorts, so the store keeps the timestamp value itself as its key.
* Code that can raise returns Except; the only exception a detector check
  can raise is the TypeError from subtracting an absent (None) high/low.
-/

namespace MarketPipeline

/-- Round-half-to-even of a rational to an integer, the semantics of
Python's builtin round applied to an exactly represented value. -/
def roundHalfEven (x : ℚ) : ℤ :=
  let f := Int.floor x
  let r := x - f
  if r < 1/2 then f
  else if 1/2 < r then f + 1
  else if 2 ∣ f then f else f + 1

/-- Python round(x, nd): round to nd decimal digits, ties to even. -/
def pyRound (x : ℚ) (nd : ℕ) : ℚ :=
  let m : ℚ := (10 : ℚ) ^ nd
  (roundHalfEven (x * m) : ℚ) / m

/-- statistics.mean. -/
def mean (l : List ℚ) : ℚ := l.sum / l.length

/-- Sample variance with n-1 denominator; statistics.stdev is its square
root. -/
def sampleVariance (l : List ℚ) : ℚ :=
  ((l.map (fun x => (x - mean l) ^ 2)).sum) / ((l.length : ℚ) - 1)

/-- fetcher.Tick.  symbol/timestamp/price/volume are always present;
open/high/low/vwap are nullable (the storage schema and the stream parser
both admit absent values, claim sources name this).  The field named open
in the source is openPrice here (Lean keyword).  timestamp abstracts a
naive UTC datetime. -/
structure Tick where
  symbol : String
  timestamp : ℕ
  price : ℚ
  volume : ℤ
  openPrice : Option ℚ
  high : Option ℚ
  low : Option ℚ
  vwap : Option ℚ
  deriving DecidableEq

/-- signals.SignalType. -/
inductive SignalType
  | PRICE_SPIKE
  | VOLUME_SURGE
  | VOLATILITY_BURST
  | VWAP_DEVIATION
  deriving DecidableEq

/-- signals.Signal.  The formatted message string is abstracted to the
direction word interpolated into it (none for the checks whose message has
no direction word).  metadata keeps the numeric entries exactly
representable as rationals; the zscore and stdev entries of the price-spike
metadata are square roots of rationals and are omitted from the model (no
claim concerns them). -/
structure Signal where
  signal_type : SignalType
  symbol : String
  timestamp : ℕ
  price : ℚ
  direction : Option String
  metadata : List (String × ℚ)
  deriving DecidableEq

/-- SignalDetector's constructor configuration with its default values. -/
structure Config where
  price_spike_zscore : ℚ := 5/2
  volume_surge_multiplier : ℚ := 3
  volatility_burst_multiplier : ℚ := 5/2
  vwap_deviation_pct : ℚ := 1/2
  min_history : ℕ := 10
  deriving DecidableEq

/-- A detector with all-default thresholds. -/
def defaultConfig : Config := {}

/-- The single runtime error the detector can raise: the TypeError from
tick.high - tick.low when one of them is None. -/
inductive PyErr
  | typeError
  deriving DecidableEq

/-- SignalDetector._check_price_spike.  The source tests stdev == 0 and
abs(zscore) >= threshold with stdev = sqrt(sampleVariance); since the
variance is nonnegative, stdev == 0 iff the variance is 0, and
abs((p - mean)/stdev) >= c iff c <= 0 or c^2 * variance <= (p - mean)^2.
The executable definition uses these squared forms; absDiv_sqrt_ge_iff
below proves them equivalent to the source's real-valued conditions.
zscore > 0 iff mean < tick.price (stdev is positive here). -/
def checkPriceSpike (cfg : Config) (tick : Tick) (past : List Tick) : List Signal :=
  let prices := past.map Tick.price
  if prices.length < 2 then []
  else
    let m := mean prices
    let v := sampleVariance prices
    if v = 0 then []
    else
      if cfg.price_spike_zscore ≤ 0 ∨ cfg.price_spike_zscore ^ 2 * v ≤ (tick.price - m) ^ 2 then
        [{ signal_type := SignalType.PRICE_SPIKE,
           symbol := tick.symbol,
           timestamp := tick.timestamp,
           price := tick.price,
           direction := some (if m < tick.price then "above" else "below"),
           metadata := [("mean", pyRound m 4)] }]
      else []

/-- The past volumes the volume-surge check averages: volumes of past
ticks with volume > 0. -/
def posVolumes (past : List Tick) : List ℚ :=
  (past.filter (fun t => decide (0 < t.volume))).map (fun t => ((t.volume : ℚ)))

/-- SignalDetector._check_volume_surge.  The local named ratio in the
source is q here. -/
def checkVolumeSurge (cfg : Config) (tick : Tick) (past : List Tick) : List Signal :=
  let volumes := posVolumes past
  if volumes = [] then []
  else
    let avg_vol := mean volumes
    if avg_vol = 0 then []
    else
      let q := (tick.volume : ℚ) / avg_vol
      if cfg.volume_surge_multiplier ≤ q then
        [{ signal_type := SignalType.VOLUME_SURGE,
           symbol := tick.symbol,
           timestamp := tick.timestamp,
           price := tick.price,
           direction := none,
           metadata := [("ratio", pyRound q 2), ("avg_volume", pyRound avg_vol 0)] }]
      else []

/-- The high-low ranges of the past ticks whose high and low are both
present and truthy (Python: if t.high and t.low — None and 0.0 are both
falsy). -/
def rangesOf (past : List Tick) : List ℚ :=
  past.filterMap (fun t =>
    match t.high, t.low with
    | some h, some l => if h ≠ 0 ∧ l ≠ 0 then some (h - l) else none
    | _, _ => none)

/-- SignalDetector._check_volatility_burst.  tick.high - tick.low is
computed without guarding for absence: if either is None the check raises
TypeError.  The local named ratio in the source is q here. -/
def checkVolatilityBurst (cfg : Config) (tick : Tick) (past : List Tick) :
    Except PyErr (List Signal) :=
  let ranges := rangesOf past
  if ranges = [] then Except.ok []
  else
    let avg_range := mean ranges
    if avg_range = 0 then Except.ok []
    else
      match tick.high, tick.low with
      | some h, some l =>
        let current_range := h - l
        let q := current_range / avg_range
        if cfg.volatility_burst_multiplier ≤ q then
          Except.ok [{ signal_type := SignalType.VOLATILITY_BURST,
                       symbol := tick.symbol,
                       timestamp := tick.timestamp,
                       price := tick.price,
                       direction := none,
                       metadata := [("range", pyRound current_range 4),
                                    ("avg_range", pyRound avg_range 4),
                                    ("ratio", pyRound q 2)] }]
        else Except.ok []
      | _, _ => Except.error PyErr.typeError

/-- SignalDetector._check_vwap_deviation: uses only the tick. -/
def checkVwapDeviation (cfg : Config) (tick : Tick) : List Signal :=
  match tick.vwap with
  | none => []
  | some v =>
    if v = 0 then []
    else
      let deviation_pct := |tick.price - v| / v * 100
      if cfg.vwap_deviation_pct ≤ deviation_pct then
        [{ signal_type := SignalType.VWAP_DEVIATION,
           symbol := tick.symbol,
           timestamp := tick.timestamp,
           price := tick.price,
           direction := some (if v < tick.price then "above" else "below"),
           metadata := [("deviation_pct", pyRound deviation_pct 3), ("vwap", v)] }]
      else []

/-- past = history[:-1] if len(history) > 1 else history. -/
def pastOf (history : List Tick) : List Tick :=
  if 1 < history.length then history.dropLast else history

/-- SignalDetector.detect: warm-up gate, then the four checks in source
order; a TypeError raised by the volatility-burst check propagates and no
signal list is returned. -/
def detect (cfg : Config) (tick : Tick) (history : List Tick) :
    Except PyErr (List Signal) :=
  if history.length < cfg.min_history then Except.ok []
  else
    let past := pastOf history
    match checkVolatilityBurst cfg tick past with
    | Except.error e => Except.error e
    | Except.ok vb =>
      Except.ok (checkPriceSpike cfg tick past ++ checkVolumeSurge cfg tick past ++
                 vb ++ checkVwapDeviation cfg tick)

/-- A concrete well-formed tick used by witnesses. -/
def tickA : Tick :=
  { symbol := "AAPL", timestamp := 0, price := 100, volume := 100,
    openPrice := some 100, high := some 101, low := some 99, vwap := none }

/-- Claim C1: for every tick and every history shorter than the configured
min_history, detect returns the empty signal list (and in particular
raises nothing), regardless of the tick's values. -/
theorem detect_warmup_gate (cfg : Config) (tick : Tick) (history : List Tick)
    (h : history.length < cfg.min_history) :
    detect cfg tick history = Except.ok [] := by
  unfold detect
  simp [h]

/-- Witness for C1 at a concrete input: a three-tick history is below the
default warm-up threshold of 10, so detect returns no signals. -/
theorem detect_warmup_gate_witness :
    [tickA, tickA, tickA].length < defaultConfig.min_history ∧
      detect defaultConfig tickA [tickA, tickA, tickA] = Except.ok [] := by
  refine ⟨by decide, detect_warmup_gate defaultConfig tickA _ (by decide)⟩

/-- The sample variance of a list with at least two entries is
nonnegative. -/
lemma sampleVariance_nonneg (l : List ℚ) (h : 2 ≤ l.length) : 0 ≤ sampleVariance l := by
  unfold sampleVariance
  apply div_nonneg
  · apply List.sum_nonneg
    intro x hx
    simp only [List.mem_map] at hx
    obtain ⟨y, _, rfl⟩ := hx
    positivity
  · have h2 : (2:ℚ) ≤ (l.length : ℚ) := by exact_mod_cast h
    linarith

/-- Bridge between the source's condition abs((p - m)/stdev) >= c, with
stdev the real square root of the variance v > 0, and the squared rational
form the executable detector uses. -/
lemma absDiv_sqrt_ge_iff (num c v : ℚ) (hv : 0 < v) :
    ((c : ℝ) ≤ |(num : ℝ)| / Real.sqrt (v : ℝ)) ↔ (c ≤ 0 ∨ c ^ 2 * v ≤ num ^ 2) := by
  have hvR : (0:ℝ) < (v:ℝ) := by exact_mod_cast hv
  have hs : 0 < Real.sqrt (v:ℝ) := Real.sqrt_pos.mpr hvR
  rw [le_div_iff₀ hs]
  rcases le_or_lt c 0 with hc | hc
  · have hcR : (c:ℝ) ≤ 0 := by exact_mod_cast hc
    simp only [hc, true_or, iff_true]
    calc (c:ℝ) * Real.sqrt v ≤ 0 := mul_nonpos_of_nonpos_of_nonneg hcR hs.le
    _ ≤ |(num:ℝ)| := abs_nonneg _
  · have hcR : (0:ℝ) < (c:ℝ) := by exact_mod_cast hc
    have hnot : ¬ c ≤ 0 := not_le.mpr hc
    simp only [hnot, false_or]
    rw [← pow_le_pow_iff_left₀ (mul_nonneg hcR.le hs.le) (abs_nonneg _) two_ne_zero,
        mul_pow, Real.sq_sqrt hvR.le, sq_abs]
    constructor
    · intro h
      exact_mod_cast h
    · intro h
      exact_mod_cast h

/-- With a positive denominator, a quotient is positive iff its numerator
is. -/
lemma div_pos_iff_of_pos_den (x s : ℝ) (hs : 0 < s) : 0 < x / s ↔ 0 < x := by
  constructor
  · intro h
    have h2 := mul_pos h hs
    rwa [div_mul_cancel₀ x (ne_of_gt hs)] at h2
  · intro h
    exact div_pos h hs

/-- Claim C2: the price-spike check fires iff the past list has at least
two prices, their sample standard deviation (n-1 denominator) is non-zero,
and the absolute z-score of the tick price is at least the configured
threshold; when it fires, the message's direction word is above exactly
when the z-score is positive, and below otherwise. -/
theorem priceSpike_spec (cfg : Config) (tick : Tick) (past : List Tick) :
    (checkPriceSpike cfg tick past ≠ [] ↔
      (2 ≤ past.length ∧
        Real.sqrt ((sampleVariance (past.map Tick.price) : ℚ) : ℝ) ≠ 0 ∧
        (cfg.price_spike_zscore : ℝ) ≤
          |((tick.price - mean (past.map Tick.price) : ℚ) : ℝ)| /
            Real.sqrt ((sampleVariance (past.map Tick.price) : ℚ) : ℝ))) ∧
    (∀ sig ∈ checkPriceSpike cfg tick past,
      (sig.direction = some "above" ∨ sig.direction = some "below") ∧
      (sig.direction = some "above" ↔
        0 < ((tick.price - mean (past.map Tick.price) : ℚ) : ℝ) /
          Real.sqrt ((sampleVariance (past.map Tick.price) : ℚ) : ℝ))) := by
  have hlen : (past.map Tick.price).length = past.length := List.length_map _ _
  by_cases hshort : (past.map Tick.price).length < 2
  · have hcheck : checkPriceSpike cfg tick past = [] := by
      simp only [checkPriceSpike]
      rw [if_pos hshort]
    rw [hcheck]
    constructor
    · constructor
      · intro h
        exact absurd rfl h
      · rintro ⟨hge, -, -⟩
        intro _
        omega
    · intro sig hsig
      simp at hsig
  · push_neg at hshort
    have hpastlen : 2 ≤ past.length := by omega
    have hnshort : ¬ (past.map Tick.price).length < 2 := not_lt.mpr hshort
    have hvnn : 0 ≤ sampleVariance (past.map Tick.price) :=
      sampleVariance_nonneg _ hshort
    by_cases hv : sampleVariance (past.map Tick.price) = 0
    · have hcheck : checkPriceSpike cfg tick past = [] := by
        simp only [checkPriceSpike]
        rw [if_neg hnshort, if_pos hv]
      rw [hcheck]
      constructor
      · constructor
        · intro h
          exact absurd rfl h
        · rintro ⟨-, hsqrt, -⟩
          intro _
          exact hsqrt (by rw [hv]; simp)
      · intro sig hsig
        simp at hsig
    · have hvpos : 0 < sampleVariance (past.map Tick.price) :=
        lt_of_le_of_ne hvnn (Ne.symm hv)
      have hvR : (0:ℝ) < ((sampleVariance (past.map Tick.price) : ℚ) : ℝ) := by
        exact_mod_cast hvpos
      have hsqrtpos : 0 < Real.sqrt ((sampleVariance (past.map Tick.price) : ℚ) : ℝ) :=
        Real.sqrt_pos.mpr hvR
      have hbridge := absDiv_sqrt_ge_iff (tick.price - mean (past.map Tick.price))
        cfg.price_spike_zscore (sampleVariance (past.map Tick.price)) hvpos
      by_cases hcond : cfg.price_spike_zscore ≤ 0 ∨
          cfg.price_spike_zscore ^ 2 * sampleVariance (past.map Tick.price) ≤
            (tick.price - mean (past.map Tick.price)) ^ 2
      · have hcheck : checkPriceSpike cfg tick past =
            [{ signal_type := SignalType.PRICE_SPIKE,
               symbol := tick.symbol,
               timestamp := tick.timestamp,
               price := tick.price,
               direction := some (if mean (past.map Tick.price) < tick.price
                 then "above" else "below"),
               metadata := [("mean", pyRound (mean (past.map Tick.price)) 4)] }] := by
          simp only [checkPriceSpike]
          rw [if_neg hnshort, if_neg hv, if_pos hcond]
        rw [hcheck]
        constructor
        · constructor
          · intro _
            exact ⟨hpastlen, ne_of_gt hsqrtpos, hbridge.mpr hcond⟩
          · intro _
            simp
        · intro sig hsig
          simp only [List.mem_singleton] at hsig
          subst hsig
          dsimp only
          by_cases hdir : mean (past.map Tick.price) < tick.price
          · rw [if_pos hdir]
            refine ⟨Or.inl rfl, ?_⟩
            rw [div_pos_iff_of_pos_den _ _ hsqrtpos]
            constructor
            · intro _
              exact_mod_cast sub_pos.mpr hdir
            · intro _
              rfl
          · rw [if_neg hdir]
            refine ⟨Or.inr rfl, ?_⟩
            rw [div_pos_iff_of_pos_den _ _ hsqrtpos]
            constructor
            · intro hcontra
              exact absurd (Option.some.inj hcontra) (by decide)
            · intro hpos
              have h2 : (0:ℚ) < tick.price - mean (past.map Tick.price) := by
                exact_mod_cast hpos
              push_neg at hdir
              linarith
      · have hcheck : checkPriceSpike cfg tick past = [] := by
          simp only [checkPriceSpike]
          rw [if_neg hnshort, if_neg hv, if_neg hcond]
        rw [hcheck]
        constructor
        · constructor
          · intro h
            exact absurd rfl h
          · rintro ⟨-, -, hge⟩
            intro _
            exact hcond (hbridge.mp hge)
        · intro sig hsig
          simp at hsig

/-- A 3-tick past whose prices are 9, 10, 11: mean 10, sample variance 1. -/
def pastW : List Tick :=
  [{ tickA with price := 9 }, { tickA with price := 10 }, { tickA with price := 11 }]

/-- A tick priced five standard deviations above the mean of pastW. -/
def tickW : Tick := { tickA with price := 15 }

/-- Witness for C2 at a concrete input: with past prices 9, 10, 11 (mean
10, sample variance 1) and a tick at 15 the z-score is 5, which is at
least the default threshold 2.5, so the price-spike check fires. -/
theorem priceSpike_spec_witness :
    checkPriceSpike defaultConfig tickW pastW ≠ [] := by
  have hmean : mean (pastW.map Tick.price) = 10 := by
    norm_num [pastW, tickA, mean, tickW]
  have hvar : sampleVariance (pastW.map Tick.price) = 1 := by
    norm_num [pastW, tickA, sampleVariance, mean, tickW]
  apply (priceSpike_spec defaultConfig tickW pastW).1.mpr
  refine ⟨by norm_num [pastW], ?_, ?_⟩
  · rw [hvar]
    norm_num
  · rw [hvar, hmean]
    norm_num [tickW, tickA, defaultConfig]

/-- Round-half-to-even never moves a value down by more than one half. -/
lemma roundHalfEven_ge (y : ℚ) : y - 1/2 ≤ (roundHalfEven y : ℚ) := by
  have hfl : ((Int.floor y : ℤ) : ℚ) ≤ y := Int.floor_le y
  have hlt : y < ((Int.floor y : ℤ) : ℚ) + 1 := Int.lt_floor_add_one y
  simp only [roundHalfEven]
  split_ifs <;> push_cast <;> linarith

/-- Round-half-to-even never moves a value up by more than one half. -/
lemma roundHalfEven_le (y : ℚ) : (roundHalfEven y : ℚ) ≤ y + 1/2 := by
  have hfl : ((Int.floor y : ℤ) : ℚ) ≤ y := Int.floor_le y
  have hlt : y < ((Int.floor y : ℤ) : ℚ) + 1 := Int.lt_floor_add_one y
  simp only [roundHalfEven]
  split_ifs <;> push_cast <;> linarith

/-- Rounding to nd decimal digits moves a value down by at most half of
the last kept digit. -/
lemma pyRound_ge (x : ℚ) (nd : ℕ) : x - 1 / (2 * 10 ^ nd) ≤ pyRound x nd := by
  have hm : (0:ℚ) < (10 : ℚ) ^ nd := by positivity
  have h0 := roundHalfEven_ge (x * (10:ℚ) ^ nd)
  unfold pyRound
  rw [le_div_iff₀ hm]
  calc (x - 1 / (2 * 10 ^ nd)) * (10:ℚ) ^ nd = x * (10:ℚ) ^ nd - 1/2 := by
        field_simp
        ring
  _ ≤ (roundHalfEven (x * (10:ℚ) ^ nd) : ℚ) := by linarith

/-- Every entry of posVolumes is positive. -/
lemma posVolumes_mem_pos (past : List Tick) (x : ℚ) (hx : x ∈ posVolumes past) : 0 < x := by
  unfold posVolumes at hx
  simp only [List.mem_map, List.mem_filter] at hx
  obtain ⟨t, ⟨-, ht⟩, rfl⟩ := hx
  have : 0 < t.volume := of_decide_eq_true ht
  exact_mod_cast this

/-- posVolumes is empty exactly when no past tick has positive volume. -/
lemma posVolumes_eq_nil_iff (past : List Tick) :
    posVolumes past = [] ↔ ¬ ∃ t ∈ past, 0 < t.volume := by
  unfold posVolumes
  constructor
  · intro h hex
    obtain ⟨t, ht, htpos⟩ := hex
    have hmem : (t.volume : ℚ) ∈ (past.filter (fun t => decide (0 < t.volume))).map
        (fun t => ((t.volume : ℚ))) := by
      apply List.mem_map_of_mem
      exact List.mem_filter.mpr ⟨ht, decide_eq_true htpos⟩
    rw [h] at hmem
    simp at hmem
  · intro h
    rw [List.map_eq_nil_iff, List.filter_eq_nil_iff]
    intro t ht
    simp only [decide_eq_true_eq]
    exact fun hpos => h ⟨t, ht, hpos⟩

/-- The mean of a nonempty list of positive rationals is positive. -/
lemma mean_pos (l : List ℚ) (hne : l ≠ []) (hpos : ∀ x ∈ l, 0 < x) : 0 < mean l := by
  unfold mean
  apply div_pos (List.sum_pos l hpos hne)
  have : 0 < l.length := List.length_pos.mpr hne
  exact_mod_cast this

/-- Claim C3 (amended): the volume-surge check fires iff some past tick
has positive volume and the tick's volume divided by the mean of the
positive past volumes is at least the configured multiplier; when it
fires, the metadata entry under key ratio is that ratio rounded to two
decimal digits (Python round), hence at least the threshold minus 1/200 —
but, because of the rounding, not necessarily at least the threshold
itself. -/
theorem volumeSurge_spec (cfg : Config) (tick : Tick) (past : List Tick) :
    (checkVolumeSurge cfg tick past ≠ [] ↔
      ((∃ t ∈ past, 0 < t.volume) ∧
        cfg.volume_surge_multiplier ≤ (tick.volume : ℚ) / mean (posVolumes past))) ∧
    (∀ sig ∈ checkVolumeSurge cfg tick past,
      sig.metadata.lookup "ratio" =
        some (pyRound ((tick.volume : ℚ) / mean (posVolumes past)) 2) ∧
      cfg.volume_surge_multiplier ≤ (tick.volume : ℚ) / mean (posVolumes past) ∧
      cfg.volume_surge_multiplier - 1/200 ≤
        pyRound ((tick.volume : ℚ) / mean (posVolumes past)) 2) := by
  by_cases hvol : posVolumes past = []
  · have hcheck : checkVolumeSurge cfg tick past = [] := by
      simp only [checkVolumeSurge]
      rw [if_pos hvol]
    rw [hcheck]
    constructor
    · constructor
      · intro h
        exact absurd rfl h
      · rintro ⟨hex, -⟩
        intro _
        exact (posVolumes_eq_nil_iff past).mp hvol hex
    · intro sig hsig
      simp at hsig
  · have hex : ∃ t ∈ past, 0 < t.volume := by
      by_contra h
      exact hvol ((posVolumes_eq_nil_iff past).mpr h)
    have havg : 0 < mean (posVolumes past) :=
      mean_pos _ hvol (posVolumes_mem_pos past)
    have havgne : ¬ mean (posVolumes past) = 0 := ne_of_gt havg
    by_cases hq : cfg.volume_surge_multiplier ≤ (tick.volume : ℚ) / mean (posVolumes past)
    · have hcheck : checkVolumeSurge cfg tick past =
          [{ signal_type := SignalType.VOLUME_SURGE,
             symbol := tick.symbol,
             timestamp := tick.timestamp,
             price := tick.price,
             direction := none,
             metadata := [("ratio", pyRound ((tick.volume : ℚ) / mean (posVolumes past)) 2),
                          ("avg_volume", pyRound (mean (posVolumes past)) 0)] }] := by
        simp only [checkVolumeSurge]
        rw [if_neg hvol, if_neg havgne, if_pos hq]
      rw [hcheck]
      constructor
      · constructor
        · intro _
          exact ⟨hex, hq⟩
        · intro _
          simp
      · intro sig hsig
        simp only [List.mem_singleton] at hsig
        subst hsig
        refine ⟨by simp [List.lookup], hq, ?_⟩
        have hb := pyRound_ge ((tick.volume : ℚ) / mean (posVolumes past)) 2
        have : (1:ℚ) / (2 * 10 ^ 2) = 1/200 := by norm_num
        rw [this] at hb
        linarith
    · have hcheck : checkVolumeSurge cfg tick past = [] := by
        simp only [checkVolumeSurge]
        rw [if_neg hvol, if_neg havgne, if_neg hq]
      rw [hcheck]
      constructor
      · constructor
        · intro h
          exact absurd rfl h
        · rintro ⟨-, hge⟩
          intro _
          exact hq hge
      · intro sig hsig
        simp at hsig

/-- A configuration whose volume-surge multiplier is 3.001, not a multiple
of one hundredth. -/
def cfgStrict : Config := { volume_surge_multiplier := 3001/1000 }

/-- A tick with volume 30014. -/
def tickVol : Tick := { tickA with volume := 30014 }

/-- A past tick with volume 10000. -/
def tickPastVol : Tick := { tickA with volume := 10000 }

/-- The volume-surge signal fired for tickVol against [tickPastVol] under
cfgStrict: the true ratio 3.0014 is at least the 3.001 threshold, but the
stored metadata ratio is round(3.0014, 2) = 3.0, which is below it. -/
def surgeSigX : Signal :=
  { signal_type := SignalType.VOLUME_SURGE, symbol := "AAPL", timestamp := 0,
    price := 100, direction := none,
    metadata := [("ratio", 3), ("avg_volume", 10000)] }

/-- Counterexample to C3 as stated: with multiplier 3.001, past volume
10000 and tick volume 30014 the check fires (ratio 3.0014 ≥ 3.001), yet
the metadata value under key ratio is the rounded 3.0, which is strictly
below the threshold. -/
theorem volumeSurge_metadata_below_threshold :
    checkVolumeSurge cfgStrict tickVol [tickPastVol] = [surgeSigX] ∧
    surgeSigX.metadata.lookup "ratio" = some 3 ∧
    (3:ℚ) < cfgStrict.volume_surge_multiplier := by
  refine ⟨?_, by simp [surgeSigX, List.lookup], by norm_num [cfgStrict]⟩
  have hpv : posVolumes [tickPastVol] = [(10000:ℚ)] := by
    norm_num [posVolumes, tickPastVol, tickA]
  have hmean : mean [(10000:ℚ)] = 10000 := by
    norm_num [mean]
  simp only [checkVolumeSurge, hpv, hmean]
  norm_num [cfgStrict, tickVol, tickA, surgeSigX, pyRound, roundHalfEven]

/-- Witness for C3 at a concrete input: under the default multiplier 3
and a single past volume of 10000, a tick volume of 30014 fires the check
and its stored ratio is 3, at least 3 - 1/200. -/
theorem volumeSurge_spec_witness :
    checkVolumeSurge defaultConfig tickVol [tickPastVol] ≠ [] := by
  have hpv : posVolumes [tickPastVol] = [(10000:ℚ)] := by
    norm_num [posVolumes, tickPastVol, tickA]
  have hmean : mean [(10000:ℚ)] = 10000 := by
    norm_num [mean]
  apply (volumeSurge_spec defaultConfig tickVol [tickPastVol]).1.mpr
  constructor
  · exact ⟨tickPastVol, by simp, by norm_num [tickPastVol, tickA]⟩
  · rw [hpv, hmean]
    norm_num [defaultConfig, tickVol, tickA]

/-- Every signal the price-spike check emits is tagged PRICE_SPIKE. -/
lemma checkPriceSpike_sigtype (cfg : Config) (tick : Tick) (past : List Tick) :
    ∀ sig ∈ checkPriceSpike cfg tick past, sig.signal_type = SignalType.PRICE_SPIKE := by
  intro sig hsig
  simp only [checkPriceSpike] at hsig
  split_ifs at hsig <;> simp_all

/-- Every signal the volume-surge check emits is tagged VOLUME_SURGE. -/
lemma checkVolumeSurge_sigtype (cfg : Config) (tick : Tick) (past : List Tick) :
    ∀ sig ∈ checkVolumeSurge cfg tick past, sig.signal_type = SignalType.VOLUME_SURGE := by
  intro sig hsig
  simp only [checkVolumeSurge] at hsig
  split_ifs at hsig <;> simp_all

/-- Every signal the vwap-deviation check emits is tagged VWAP_DEVIATION. -/
lemma checkVwapDeviation_sigtype (cfg : Config) (tick : Tick) :
    ∀ sig ∈ checkVwapDeviation cfg tick, sig.signal_type = SignalType.VWAP_DEVIATION := by
  intro sig hsig
  simp only [checkVwapDeviation] at hsig
  rcases hv : tick.vwap with _ | v
  · rw [hv] at hsig
    simp at hsig
  · rw [hv] at hsig
    dsimp only at hsig
    split_ifs at hsig <;> simp_all

/-- Every signal the volatility-burst check returns successfully is tagged
VOLATILITY_BURST. -/
lemma checkVolatilityBurst_sigtype (cfg : Config) (tick : Tick) (past : List Tick)
    (vb : List Signal) (h : checkVolatilityBurst cfg tick past = Except.ok vb) :
    ∀ sig ∈ vb, sig.signal_type = SignalType.VOLATILITY_BURST := by
  intro sig hsig
  simp only [checkVolatilityBurst] at h
  by_cases h1 : rangesOf past = []
  · rw [if_pos h1] at h
    simp only [Except.ok.injEq] at h
    subst h
    simp at hsig
  · rw [if_neg h1] at h
    by_cases h2 : mean (rangesOf past) = 0
    · rw [if_pos h2] at h
      simp only [Except.ok.injEq] at h
      subst h
      simp at hsig
    · rw [if_neg h2] at h
      rcases hh : tick.high with _ | hv
      · rw [hh] at h
        simp at h
      · rcases hl : tick.low with _ | lv
        · rw [hh, hl] at h
          simp at h
        · rw [hh, hl] at h
          dsimp only at h
          split_ifs at h
          · simp only [Except.ok.injEq] at h
            subst h
            simp only [List.mem_singleton] at hsig
            subst hsig
            rfl
          · simp only [Except.ok.injEq] at h
            subst h
            simp at hsig

/-- A past tick with no optional fields set: price 100, volume 100. -/
def ptV : Tick :=
  { symbol := "AAPL", timestamp := 0, price := 100, volume := 100,
    openPrice := none, high := none, low := none, vwap := none }

/-- A tick one percent above its vwap of 100. -/
def tickV : Tick :=
  { symbol := "AAPL", timestamp := 9, price := 101, volume := 100,
    openPrice := none, high := none, low := none, vwap := some 100 }

/-- A 10-tick history (ptV nine times, then tickV): long enough for the
default warm-up gate, with constant past prices and volumes and no past
high/low data. -/
def historyV : List Tick :=
  [ptV, ptV, ptV, ptV, ptV, ptV, ptV, ptV, ptV, tickV]

/-- The vwap-deviation signal detect emits for tickV. -/
def vwapSigV : Signal :=
  { signal_type := SignalType.VWAP_DEVIATION, symbol := "AAPL", timestamp := 9,
    price := 101, direction := some "above",
    metadata := [("deviation_pct", 1), ("vwap", 100)] }

/-- Claim C4: past the warm-up gate the vwap-deviation portion of detect's
output is a function of the tick alone (for any history, the
VWAP_DEVIATION-typed signals of a successful detect equal
checkVwapDeviation of the tick); the check fires iff the tick's vwap is
present and non-zero and the percentage deviation of the price from the
vwap is at least the configured threshold; its direction word is above
exactly when the price exceeds the vwap and below otherwise; and there is
an input on which the vwap-deviation check fires while no other check
fires. -/
theorem vwapDeviation_spec :
    (∀ (cfg : Config) (tick : Tick) (history : List Tick) (l : List Signal),
      cfg.min_history ≤ history.length →
      detect cfg tick history = Except.ok l →
      l.filter (fun s => decide (s.signal_type = SignalType.VWAP_DEVIATION)) =
        checkVwapDeviation cfg tick) ∧
    (∀ (cfg : Config) (tick : Tick),
      checkVwapDeviation cfg tick ≠ [] ↔
        ∃ v, tick.vwap = some v ∧ v ≠ 0 ∧
          cfg.vwap_deviation_pct ≤ |tick.price - v| / v * 100) ∧
    (∀ (cfg : Config) (tick : Tick), ∀ sig ∈ checkVwapDeviation cfg tick,
      ∀ v, tick.vwap = some v →
        ((sig.direction = some "above" ↔ v < tick.price) ∧
         (sig.direction = some "above" ∨ sig.direction = some "below"))) ∧
    (detect defaultConfig tickV historyV = Except.ok [vwapSigV] ∧
      vwapSigV.signal_type = SignalType.VWAP_DEVIATION ∧
      checkPriceSpike defaultConfig tickV (pastOf historyV) = [] ∧
      checkVolumeSurge defaultConfig tickV (pastOf historyV) = [] ∧
      checkVolatilityBurst defaultConfig tickV (pastOf historyV) = Except.ok []) := by
  refine ⟨?_, ?_, ?_, ?_⟩
  · intro cfg tick history l h1 h2
    simp only [detect] at h2
    rw [if_neg (not_lt.mpr h1)] at h2
    rcases hvb : checkVolatilityBurst cfg tick (pastOf history) with e | vb
    · rw [hvb] at h2
      simp at h2
    · rw [hvb] at h2
      simp only [Except.ok.injEq] at h2
      subst h2
      rw [List.filter_append, List.filter_append, List.filter_append]
      have e1 : (checkPriceSpike cfg tick (pastOf history)).filter
          (fun s => decide (s.signal_type = SignalType.VWAP_DEVIATION)) = [] := by
        rw [List.filter_eq_nil_iff]
        intro a ha
        have := checkPriceSpike_sigtype cfg tick (pastOf history) a ha
        simp [this]
      have e2 : (checkVolumeSurge cfg tick (pastOf history)).filter
          (fun s => decide (s.signal_type = SignalType.VWAP_DEVIATION)) = [] := by
        rw [List.filter_eq_nil_iff]
        intro a ha
        have := checkVolumeSurge_sigtype cfg tick (pastOf history) a ha
        simp [this]
      have e3 : vb.filter
          (fun s => decide (s.signal_type = SignalType.VWAP_DEVIATION)) = [] := by
        rw [List.filter_eq_nil_iff]
        intro a ha
        have := checkVolatilityBurst_sigtype cfg tick (pastOf history) vb hvb a ha
        simp [this]
      have e4 : (checkVwapDeviation cfg tick).filter
          (fun s => decide (s.signal_type = SignalType.VWAP_DEVIATION)) =
          checkVwapDeviation cfg tick := by
        rw [List.filter_eq_self]
        intro a ha
        have := checkVwapDeviation_sigtype cfg tick a ha
        simp [this]
      rw [e1, e2, e3, e4]
      simp
  · intro cfg tick
    simp only [checkVwapDeviation]
    rcases hv : tick.vwap with _ | v
    · simp
    · simp only
      by_cases h0 : v = 0
      · rw [if_pos h0]
        constructor
        · intro h
          exact absurd rfl h
        · rintro ⟨w, hw, hwne, -⟩
          intro _
          rw [Option.some.injEq] at hw
          exact hwne (hw ▸ h0)
      · rw [if_neg h0]
        by_cases hd : cfg.vwap_deviation_pct ≤ |tick.price - v| / v * 100
        · rw [if_pos hd]
          constructor
          · intro _
            exact ⟨v, rfl, h0, hd⟩
          · intro _
            simp
        · rw [if_neg hd]
          constructor
          · intro h
            exact absurd rfl h
          · rintro ⟨w, hw, -, hge⟩
            intro _
            rw [Option.some.injEq] at hw
            subst hw
            exact hd hge
  · intro cfg tick sig hsig v hv
    simp only [checkVwapDeviation, hv] at hsig
    by_cases h0 : v = 0
    · rw [if_pos h0] at hsig
      simp at hsig
    · rw [if_neg h0] at hsig
      by_cases hd : cfg.vwap_deviation_pct ≤ |tick.price - v| / v * 100
      · rw [if_pos hd] at hsig
        simp only [List.mem_singleton] at hsig
        subst hsig
        dsimp only
        by_cases hdir : v < tick.price
        · rw [if_pos hdir]
          exact ⟨by simp [hdir], Or.inl rfl⟩
        · rw [if_neg hdir]
          refine ⟨?_, Or.inr rfl⟩
          constructor
          · intro hcontra
            exact absurd (Option.some.inj hcontra) (by decide)
          · intro hcontra
            exact absurd hcontra hdir
      · rw [if_neg hd] at hsig
        simp at hsig
  · have hpast : pastOf historyV = [ptV, ptV, ptV, ptV, ptV, ptV, ptV, ptV, ptV] := by
      simp [pastOf, historyV]
    have hspike : checkPriceSpike defaultConfig tickV (pastOf historyV) = [] := by
      rw [hpast]
      have hvar : sampleVariance ([ptV, ptV, ptV, ptV, ptV, ptV, ptV, ptV, ptV].map
          Tick.price) = 0 := by
        norm_num [sampleVariance, mean, ptV]
      simp only [checkPriceSpike]
      rw [if_neg (by norm_num [ptV]), if_pos hvar]
    have hsurge : checkVolumeSurge defaultConfig tickV (pastOf historyV) = [] := by
      rw [hpast]
      have hpv : posVolumes [ptV, ptV, ptV, ptV, ptV, ptV, ptV, ptV, ptV] =
          [100, 100, 100, 100, 100, 100, 100, 100, 100] := by
        norm_num [posVolumes, ptV]
      have hmean : mean [(100:ℚ), 100, 100, 100, 100, 100, 100, 100, 100] = 100 := by
        norm_num [mean]
      simp only [checkVolumeSurge, hpv, hmean]
      rw [if_neg (by simp), if_neg (by norm_num), if_neg (by norm_num [tickV, defaultConfig])]
    have hburst : checkVolatilityBurst defaultConfig tickV (pastOf historyV) =
        Except.ok [] := by
      rw [hpast]
      have hr : rangesOf [ptV, ptV, ptV, ptV, ptV, ptV, ptV, ptV, ptV] = [] := by
        simp [rangesOf, ptV]
      simp only [checkVolatilityBurst]
      rw [if_pos hr]
    have hvwap : checkVwapDeviation defaultConfig tickV = [vwapSigV] := by
      simp only [checkVwapDeviation, tickV]
      norm_num [defaultConfig, vwapSigV, pyRound, roundHalfEven]
    have hdet : detect defaultConfig tickV historyV = Except.ok [vwapSigV] := by
      simp only [detect]
      rw [if_neg (by norm_num [historyV, defaultConfig])]
      rw [hburst, hspike, hsurge, hvwap]
      simp
    exact ⟨hdet, rfl, hspike, hsurge, hburst⟩

/-- Witness for C4 at a concrete input: applying the vwap theorem to the
10-tick history historyV shows the VWAP_DEVIATION-typed part of detect's
output equals checkVwapDeviation of the tick alone. -/
theorem vwapDeviation_spec_witness :
    ([vwapSigV].filter (fun s => decide (s.signal_type = SignalType.VWAP_DEVIATION))) =
      checkVwapDeviation defaultConfig tickV := by
  exact vwapDeviation_spec.1 defaultConfig tickV historyV [vwapSigV]
    (by norm_num [historyV, defaultConfig]) vwapDeviation_spec.2.2.2.1

/-- Claim C10 (amended): when the warm-up gate passes, the tick's high or
low is absent, and the past ticks contribute a nonempty list of high-low
ranges with non-zero mean, detect raises the unguarded TypeError of the
volatility-burst check instead of skipping it.  (The claim as stated only
asked for one past tick with high and low present and non-zero; that is
not enough, because such a tick can have high = low, making the average
range zero and short-circuiting the check before it touches the tick.) -/
theorem detect_raises_on_absent_highlow (cfg : Config) (tick : Tick) (history : List Tick)
    (hwarm : cfg.min_history ≤ history.length)
    (habs : tick.high = none ∨ tick.low = none)
    (hne : rangesOf (pastOf history) ≠ [])
    (havg : mean (rangesOf (pastOf history)) ≠ 0) :
    detect cfg tick history = Except.error PyErr.typeError := by
  have hburst : checkVolatilityBurst cfg tick (pastOf history) =
      Except.error PyErr.typeError := by
    simp only [checkVolatilityBurst]
    rw [if_neg hne, if_neg havg]
    rcases hh : tick.high with _ | a
    · rcases hl : tick.low with _ | b
      · rfl
      · rfl
    · rcases hl : tick.low with _ | b
      · rfl
      · rcases habs with h | h
        · rw [hh] at h
          exact absurd h (by simp)
        · rw [hl] at h
          exact absurd h (by simp)
  simp only [detect]
  rw [if_neg (not_lt.mpr hwarm), hburst]

/-- A past tick whose high and low are both present and non-zero but
equal, so its high-low range is zero. -/
def ptFlat : Tick := { ptV with high := some 5, low := some 5 }

/-- A tick with absent high and low. -/
def tickNoHL : Tick :=
  { symbol := "AAPL", timestamp := 9, price := 100, volume := 100,
    openPrice := none, high := none, low := none, vwap := none }

/-- A 10-tick history whose only past tick with high/low data is ptFlat. -/
def history10 : List Tick :=
  [ptFlat, ptV, ptV, ptV, ptV, ptV, ptV, ptV, ptV, tickNoHL]

/-- Counterexample to C10 as stated: the warm-up gate passes and the past
contains a tick (ptFlat) with high and low present and non-zero, the
current tick's high is absent — yet detect raises nothing: ptFlat has
high = low, the average range is zero, and the volatility-burst check
returns before computing tick.high - tick.low. -/
theorem detect_no_raise_on_zero_avg_range :
    tickNoHL.high = none ∧
    ptFlat ∈ pastOf history10 ∧
    ptFlat.high = some 5 ∧ ptFlat.low = some 5 ∧ (5:ℚ) ≠ 0 ∧
    defaultConfig.min_history ≤ history10.length ∧
    detect defaultConfig tickNoHL history10 = Except.ok [] := by
  have hpast : pastOf history10 =
      [ptFlat, ptV, ptV, ptV, ptV, ptV, ptV, ptV, ptV] := by
    simp [pastOf, history10]
  refine ⟨rfl, by rw [hpast]; simp, rfl, rfl, by norm_num, by norm_num [history10, defaultConfig], ?_⟩
  have hr : rangesOf [ptFlat, ptV, ptV, ptV, ptV, ptV, ptV, ptV, ptV] = [0] := by
    norm_num [rangesOf, ptFlat, ptV, List.filterMap_cons]
  have hburst : checkVolatilityBurst defaultConfig tickNoHL (pastOf history10) =
      Except.ok [] := by
    rw [hpast]
    simp only [checkVolatilityBurst, hr]
    rw [if_neg (by simp), if_pos (by norm_num [mean])]
  have hspike : checkPriceSpike defaultConfig tickNoHL (pastOf history10) = [] := by
    rw [hpast]
    have hvar : sampleVariance ([ptFlat, ptV, ptV, ptV, ptV, ptV, ptV, ptV, ptV].map
        Tick.price) = 0 := by
      norm_num [sampleVariance, mean, ptFlat, ptV]
    simp only [checkPriceSpike]
    rw [if_neg (by norm_num [ptFlat, ptV]), if_pos hvar]
  have hsurge : checkVolumeSurge defaultConfig tickNoHL (pastOf history10) = [] := by
    rw [hpast]
    have hpv : posVolumes [ptFlat, ptV, ptV, ptV, ptV, ptV, ptV, ptV, ptV] =
        [100, 100, 100, 100, 100, 100, 100, 100, 100] := by
      norm_num [posVolumes, ptFlat, ptV]
    have hmean : mean [(100:ℚ), 100, 100, 100, 100, 100, 100, 100, 100] = 100 := by
      norm_num [mean]
    simp only [checkVolumeSurge, hpv, hmean]
    rw [if_neg (by simp), if_neg (by norm_num),
        if_neg (by norm_num [tickNoHL, defaultConfig])]
  have hvwap : checkVwapDeviation defaultConfig tickNoHL = [] := by
    simp [checkVwapDeviation, tickNoHL]
  simp only [detect]
  rw [if_neg (by norm_num [history10, defaultConfig]), hburst, hspike, hsurge, hvwap]
  rfl

/-- A past tick with a genuine high-low range of 2. -/
def ptRange : Tick := { ptV with high := some 4, low := some 2 }

/-- A 10-tick history whose past ranges average to 2. -/
def historyE : List Tick :=
  [ptRange, ptV, ptV, ptV, ptV, ptV, ptV, ptV, ptV, tickNoHL]

/-- Witness for C10 (amended) at a concrete input: the past tick ptRange
gives a non-zero average range, the tick's high is absent, and detect
raises the TypeError. -/
theorem detect_raises_on_absent_highlow_witness :
    defaultConfig.min_history ≤ historyE.length ∧
    tickNoHL.high = none ∧
    rangesOf (pastOf historyE) ≠ [] ∧
    mean (rangesOf (pastOf historyE)) ≠ 0 ∧
    detect defaultConfig tickNoHL historyE = Except.error PyErr.typeError := by
  have hpast : pastOf historyE =
      [ptRange, ptV, ptV, ptV, ptV, ptV, ptV, ptV, ptV] := by
    simp [pastOf, historyE]
  have hr : rangesOf (pastOf historyE) = [2] := by
    rw [hpast]
    norm_num [rangesOf, ptRange, ptV, List.filterMap_cons]
  have hne : rangesOf (pastOf historyE) ≠ [] := by
    rw [hr]
    simp
  have havg : mean (rangesOf (pastOf historyE)) ≠ 0 := by
    rw [hr]
    norm_num [mean]
  exact ⟨by norm_num [historyE, defaultConfig], rfl, hne, havg,
    detect_raises_on_absent_highlow defaultConfig tickNoHL historyE
      (by norm_num [historyE, defaultConfig]) (Or.inl rfl) hne havg⟩

/-- One row of the ticks table, in SELECT column order (id omitted: it is
never read back).  ts holds the ISO-8601 encoding of the naive timestamp;
the encoding is an order-preserving bijection, so the model keeps the
timestamp value itself as the TEXT key. -/
structure Row where
  symbol : String
  ts : ℕ
  price : ℚ
  volume : ℤ
  openPrice : Option ℚ
  high : Option ℚ
  low : Option ℚ
  vwap : Option ℚ
  deriving DecidableEq

/-- The tuple DataStore.insert_tick binds into the INSERT statement. -/
def Tick.toRow (t : Tick) : Row :=
  { symbol := t.symbol, ts := t.timestamp, price := t.price, volume := t.volume,
    openPrice := t.openPrice, high := t.high, low := t.low, vwap := t.vwap }

/-- DataStore._row_to_tick. -/
def rowToTick (r : Row) : Tick :=
  { symbol := r.symbol, timestamp := r.ts, price := r.price, volume := r.volume,
    openPrice := r.openPrice, high := r.high, low := r.low, vwap := r.vwap }

/-- A row survives the encode/decode round trip unchanged
(datetime.fromisoformat inverts datetime.isoformat on naive datetimes; the
other columns are stored verbatim). -/
lemma rowToTick_toRow (t : Tick) : rowToTick (Tick.toRow t) = t := rfl

/-- The ticks table: rows in insertion order (the autoincrement id is the
position). -/
structure DataStore where
  rows : List Row
  deriving DecidableEq

/-- The ORDER BY ts DESC comparison. -/
def tsGe (a b : Row) : Prop := b.ts ≤ a.ts

instance : DecidableRel tsGe := fun a b => inferInstanceAs (Decidable (b.ts ≤ a.ts))

instance : IsTotal Row tsGe := ⟨fun a b => le_total b.ts a.ts⟩

instance : IsTrans Row tsGe := ⟨fun _ _ _ h1 h2 => le_trans h2 h1⟩

/-- DataStore.insert_tick: append one row and commit. -/
def DataStore.insert_tick (s : DataStore) (t : Tick) : DataStore :=
  { rows := s.rows ++ [Tick.toRow t] }

/-- DataStore.get_recent: SELECT ... WHERE symbol = ? ORDER BY ts DESC
LIMIT n, then the rows are reversed and decoded. -/
def DataStore.get_recent (s : DataStore) (symbol : String) (n : ℕ) : List Tick :=
  ((((List.insertionSort tsGe (s.rows.filter (fun r => r.symbol == symbol)))).take n).reverse).map
    rowToTick

/-- Claim C5: get_recent returns at most n ticks, all carrying the queried
symbol, ordered oldest-first by timestamp; and if no row with that symbol
was ever inserted, it returns the empty list. -/
theorem get_recent_spec (s : DataStore) (symbol : String) (n : ℕ) :
    (s.get_recent symbol n).length ≤ n ∧
    (∀ t ∈ s.get_recent symbol n, t.symbol = symbol) ∧
    List.Sorted (fun a b : Tick => a.timestamp ≤ b.timestamp) (s.get_recent symbol n) ∧
    ((∀ r ∈ s.rows, r.symbol ≠ symbol) → s.get_recent symbol n = []) := by
  refine ⟨?_, ?_, ?_, ?_⟩
  · unfold DataStore.get_recent
    rw [List.length_map, List.length_reverse, List.length_take]
    exact min_le_left _ _
  · intro t ht
    unfold DataStore.get_recent at ht
    simp only [List.mem_map, List.mem_reverse] at ht
    obtain ⟨r, hr, rfl⟩ := ht
    have hr2 : r ∈ List.insertionSort tsGe (s.rows.filter (fun r => r.symbol == symbol)) :=
      List.mem_of_mem_take hr
    have hr3 : r ∈ s.rows.filter (fun r => r.symbol == symbol) :=
      (List.perm_insertionSort tsGe _).subset hr2
    have := (List.mem_filter.mp hr3).2
    simpa [rowToTick] using this
  · have hs : List.Sorted tsGe
        (List.insertionSort tsGe (s.rows.filter (fun r => r.symbol == symbol))) :=
      List.sorted_insertionSort tsGe _
    have hs2 : List.Sorted tsGe
        ((List.insertionSort tsGe (s.rows.filter (fun r => r.symbol == symbol))).take n) :=
      hs.sublist (List.take_sublist _ _)
    have hs3 := List.pairwise_reverse.mpr hs2
    exact List.pairwise_map.mpr hs3
  · intro h
    have hf : s.rows.filter (fun r => r.symbol == symbol) = [] := by
      rw [List.filter_eq_nil_iff]
      intro r hr
      simpa using h r hr
    unfold DataStore.get_recent
    rw [hf]
    simp

/-- Empty store used by witnesses. -/
def storeEmpty : DataStore := { rows := [] }

/-- Witness for C5 at a concrete input: querying an empty store returns
the empty list (the unknown-symbol hypothesis holds vacuously). -/
theorem get_recent_spec_witness : storeEmpty.get_recent "AAPL" 3 = [] :=
  (get_recent_spec storeEmpty "AAPL" 3).2.2.2 (fun r hr => absurd hr (by simp [storeEmpty]))

/-- Claim C6 (amended): if every row already stored for the tick's symbol
has a strictly earlier timestamp, then insert followed by
get_recent(symbol, 1) returns exactly the inserted tick, equal in every
field.  (Without that freshness condition the claim fails: an already
stored later tick wins the ORDER BY ts DESC.) -/
theorem insert_get_recent_roundtrip (s : DataStore) (t : Tick)
    (hfresh : ∀ r ∈ s.rows, r.symbol = t.symbol → r.ts < t.timestamp) :
    (s.insert_tick t).get_recent t.symbol 1 = [t] := by
  unfold DataStore.insert_tick DataStore.get_recent
  have hfilter : (s.rows ++ [Tick.toRow t]).filter (fun r => r.symbol == t.symbol) =
      (s.rows.filter (fun r => r.symbol == t.symbol)) ++ [Tick.toRow t] := by
    rw [List.filter_append]
    congr 1
    simp [Tick.toRow]
  rw [hfilter]
  have hmax : ∀ r ∈ s.rows.filter (fun r => r.symbol == t.symbol), r.ts < t.timestamp := by
    intro r hr
    have h2 := List.mem_filter.mp hr
    exact hfresh r h2.1 (by simpa using h2.2)
  have hperm : List.Perm
      (List.insertionSort tsGe ((s.rows.filter (fun r => r.symbol == t.symbol)) ++ [Tick.toRow t]))
      ((s.rows.filter (fun r => r.symbol == t.symbol)) ++ [Tick.toRow t]) :=
    List.perm_insertionSort _ _
  have hsor : List.Sorted tsGe
      (List.insertionSort tsGe ((s.rows.filter (fun r => r.symbol == t.symbol)) ++ [Tick.toRow t])) :=
    List.sorted_insertionSort _ _
  have hmem : Tick.toRow t ∈
      List.insertionSort tsGe ((s.rows.filter (fun r => r.symbol == t.symbol)) ++ [Tick.toRow t]) :=
    hperm.mem_iff.mpr (by simp)
  rcases hMc : List.insertionSort tsGe
      ((s.rows.filter (fun r => r.symbol == t.symbol)) ++ [Tick.toRow t]) with _ | ⟨x, rest⟩
  · rw [hMc] at hmem
    simp at hmem
  · have hx : x = Tick.toRow t := by
      by_contra hne
      have hxmem : x ∈ (s.rows.filter (fun r => r.symbol == t.symbol)) ++ [Tick.toRow t] :=
        hperm.subset (hMc ▸ List.mem_cons_self x rest)
      have hxL : x ∈ s.rows.filter (fun r => r.symbol == t.symbol) := by
        rcases List.mem_append.mp hxmem with h | h
        · exact h
        · simp only [List.mem_singleton] at h
          exact absurd h hne
      have hxlt : x.ts < t.timestamp := hmax x hxL
      have htrest : Tick.toRow t ∈ rest := by
        rw [hMc] at hmem
        rcases List.mem_cons.mp hmem with h | h
        · exact absurd h.symm hne
        · exact h
      have hge : tsGe x (Tick.toRow t) := by
        rw [hMc] at hsor
        exact (List.pairwise_cons.mp hsor).1 _ htrest
      have : t.timestamp ≤ x.ts := hge
      omega
    rw [hx]
    simp [rowToTick_toRow]

/-- A tick at timestamp 1. -/
def tickOld : Tick := { tickA with timestamp := 1 }

/-- A tick at timestamp 2, same symbol. -/
def tickNew : Tick := { tickA with timestamp := 2 }

/-- A store already holding the later tick. -/
def storeX : DataStore := { rows := [Tick.toRow tickNew] }

/-- Counterexample to C6 as stated: inserting tickOld (timestamp 1) into a
store that already holds tickNew (same symbol, timestamp 2) and reading
back one recent tick returns tickNew, not the tick just inserted. -/
theorem insert_get_recent_not_roundtrip :
    (storeX.insert_tick tickOld).get_recent tickOld.symbol 1 = [tickNew] ∧
    tickNew ≠ tickOld := by
  constructor
  · rfl
  · intro h
    have := congrArg Tick.timestamp h
    simp [tickNew, tickOld, tickA] at this

/-- A store holding only the earlier tick. -/
def storeY : DataStore := { rows := [Tick.toRow tickOld] }

/-- Witness for C6 (amended) at a concrete input: inserting the strictly
newer tickNew into a store holding only tickOld round-trips exactly. -/
theorem insert_get_recent_roundtrip_witness :
    (storeY.insert_tick tickNew).get_recent tickNew.symbol 1 = [tickNew] :=
  insert_get_recent_roundtrip storeY tickNew (by
    intro r hr
    simp only [storeY, List.mem_singleton] at hr
    subst hr
    intro _
    decide)

/-- Outcome of one channel delivery as AlertManager.fire records it: the
send either returned, or raised an exception that fire caught and logged. -/
inductive Delivery
  | delivered
  | failed (msg : String)
  deriving DecidableEq

/-- An alert sink: send accepts one signal and returns, or raises. -/
structure Channel where
  send : Signal → Except String Unit

/-- The body of fire's loop: try channel.send(signal), catching any
exception (which is logged, not re-raised). -/
def sendCaught (c : Channel) (s : Signal) : Delivery :=
  match c.send s with
  | Except.ok _ => Delivery.delivered
  | Except.error e => Delivery.failed e

/-- AlertManager.fire: iterate over the channels in order, delivering the
signal to each inside a try/except.  Its total (non-Except) return type is
the model of the fact that fire itself never re-raises a channel's
exception. -/
def fire : List Channel → Signal → List Delivery
  | [], _ => []
  | c :: rest, s => sendCaught c s :: fire rest s

/-- Claim C7: fire invokes send on every channel in list order — the
delivery trace is exactly the channels' own send outcomes, position by
position — so a raising channel neither stops later channels from
receiving the signal nor propagates to fire's caller (fire's type is
total: it always returns a trace, never an exception). -/
theorem fire_spec (channels : List Channel) (s : Signal) :
    fire channels s = channels.map (fun c => sendCaught c s) ∧
    (fire channels s).length = channels.length ∧
    (∀ i : ℕ, (fire channels s)[i]? = channels[i]?.map (fun c => sendCaught c s)) := by
  have hmap : fire channels s = channels.map (fun c => sendCaught c s) := by
    induction channels with
    | nil => rfl
    | cons c rest ih =>
      simp only [fire, List.map_cons, ih]
  refine ⟨hmap, by rw [hmap, List.length_map], ?_⟩
  intro i
  rw [hmap, List.getElem?_map]

/-- A channel that always delivers. -/
def okChannel : Channel := { send := fun _ => Except.ok () }

/-- A channel whose send always raises. -/
def boomChannel : Channel := { send := fun _ => Except.error "boom" }

/-- State of the streaming ingestor.  should_run is the source's _running
flag; pendingTimers counts threading.Timer objects that have been started
by _on_close and have not yet fired (the source never stores or cancels
them); reconnects counts invocations of run() after the initial one. -/
structure StreamState where
  should_run : Bool
  connected : Bool
  pendingTimers : ℕ
  reconnects : ℕ
  deriving DecidableEq

/-- The externally visible events of the stream's lifecycle. -/
inductive StreamEvent
  | connClose
  | stopCall
  | timerFire
  deriving DecidableEq

/-- AlpacaStream.run: sets _running to true and (re)opens the
connection.  It does not check whether the stream was stopped. -/
def runStream (st : StreamState) : StreamState :=
  { st with should_run := true, connected := true, reconnects := st.reconnects + 1 }

/-- One transition of the streaming state machine, from the source:
_on_close starts one new five-second Timer(5.0, self.run) iff _running is
true; stop() sets _running to false and closes the socket (the close
callback then runs with _running already false, so it schedules nothing) —
but stop() does not cancel timers already started, and a firing timer
calls run() unconditionally. -/
def step (st : StreamState) : StreamEvent → StreamState
  | StreamEvent.connClose =>
    if st.should_run then
      { st with connected := false, pendingTimers := st.pendingTimers + 1 }
    else
      { st with connected := false }
  | StreamEvent.stopCall =>
    { st with should_run := false, connected := false }
  | StreamEvent.timerFire =>
    if 0 < st.pendingTimers then
      runStream { st with pendingTimers := st.pendingTimers - 1 }
    else st

/-- The state right after the initial run(): running and connected, no
timer pending, no reconnect yet. -/
def streamInit : StreamState :=
  { should_run := true, connected := true, pendingTimers := 0, reconnects := 0 }

/-- Claim C8, evaluated at its failing trace: a close while running
schedules exactly one reconnect timer, but stop() does not cancel it —
when the timer then fires, run() executes anyway: a reconnect happens
after stop() returned and the stream is running and connected again,
contradicting the claim (and the spec's stop() contract, which the code
fails to implement: the Timer handle is never stored, so it cannot be
cancelled, and run() never re-checks _running). -/
theorem stop_does_not_suppress_reconnect :
    (step streamInit StreamEvent.connClose).pendingTimers = 1 ∧
    (step (step streamInit StreamEvent.connClose) StreamEvent.stopCall).should_run = false ∧
    (step (step streamInit StreamEvent.connClose) StreamEvent.stopCall).pendingTimers = 1 ∧
    ([StreamEvent.connClose, StreamEvent.stopCall, StreamEvent.timerFire].foldl step
        streamInit).reconnects = 1 ∧
    ([StreamEvent.connClose, StreamEvent.stopCall, StreamEvent.timerFire].foldl step
        streamInit).should_run = true ∧
    ([StreamEvent.connClose, StreamEvent.stopCall, StreamEvent.timerFire].foldl step
        streamInit).connected = true := by
  decide

/-- Errors MarketFetcher.fetch can itself raise: only the ImportError for
a missing yfinance dependency, raised before the try block. -/
inductive FetchErr
  | importError
  deriving DecidableEq

/-- One row of the 1-minute bar dataframe yfinance returns. -/
structure Bar where
  close : ℚ
  volume : ℤ
  openPrice : ℚ
  high : ℚ
  low : ℚ
  deriving DecidableEq

/-- What the underlying data-source access inside fetch's try block does:
either the transport raises, or it returns a (possibly empty) dataframe of
bars whose last row carries the given index timestamp. -/
inductive SourceResult
  | failure (msg : String)
  | frame (bars : List Bar) (ts : ℕ)
  deriving DecidableEq

/-- MarketFetcher.fetch: raise ImportError when yfinance is absent; then,
inside try/except — a transport failure is caught, logged and turned into
None; an empty dataframe gives None; otherwise the last bar becomes a
Tick, with the cumulative-VWAP proxy attached unless it is falsy (absent
or zero). -/
def fetch (yfAvailable : Bool) (symbol : String) (src : SourceResult) :
    Except FetchErr (Option Tick) :=
  if yfAvailable then
    match src with
    | SourceResult.failure _ => Except.ok none
    | SourceResult.frame bars ts =>
      match bars.getLast? with
      | none => Except.ok none
      | some latest =>
        let totVol : ℚ := (bars.map (fun b => ((b.volume : ℚ)))).sum
        let vwapNum : ℚ := (bars.map (fun b => b.close * ((b.volume : ℚ)))).sum
        let vwapOpt : Option ℚ := if 0 < totVol then some (vwapNum / totVol) else none
        Except.ok (some
          { symbol := symbol, timestamp := ts, price := latest.close,
            volume := latest.volume, openPrice := some latest.openPrice,
            high := some latest.high, low := some latest.low,
            vwap := match vwapOpt with
              | none => none
              | some v => if v = 0 then none else some (pyRound v 4) })
  else Except.error FetchErr.importError

/-- Counterexample to C9 as stated: a transport failure inside fetch is
caught and turned into the absent result, not raised to the caller. -/
theorem fetch_swallows_transport_failure :
    fetch true "AAPL" (SourceResult.failure "timeout") = Except.ok none := rfl

/-- Claim C9 (amended): with the dependency available, fetch never raises:
it returns absent both when the transport fails (the failure is caught and
logged) and when no data is available, and returns a tick when the
dataframe is nonempty. -/
theorem fetch_spec (symbol : String) (src : SourceResult) :
    (∀ e, fetch true symbol src ≠ Except.error e) ∧
    (∀ m, src = SourceResult.failure m → fetch true symbol src = Except.ok none) ∧
    (∀ bars ts latest, src = SourceResult.frame bars ts → bars.getLast? = some latest →
      ∃ t : Tick, fetch true symbol src = Except.ok (some t)) := by
  refine ⟨?_, ?_, ?_⟩
  · intro e
    cases src with
    | failure m => simp [fetch]
    | frame bars ts =>
      cases h : bars.getLast? with
      | none => simp [fetch, h]
      | some latest => simp [fetch, h]
  · intro m hm
    subst hm
    rfl
  · intro bars ts latest hsrc hlast
    subst hsrc
    simp only [fetch, hlast, if_true]
    exact ⟨_, rfl⟩

/-- Witness for C9 (amended) at a concrete input: a failing source yields
the absent result through fetch. -/
theorem fetch_spec_witness :
    fetch true "MSFT" (SourceResult.failure "connection reset") = Except.ok none :=
  (fetch_spec "MSFT" (SourceResult.failure "connection reset")).2.1 "connection reset" rfl

end MarketPipeline
